import Mathlib

/-!
Verification of the volatility computation and statistical aggregation
pipeline of the EconomicIndicators repository (Python sources under
`旧要件パイソン/Python`).

Shallow embedding conventions:
* pandas DataFrames become lists of records; float prices, timestamps and
  thresholds become rationals (`ℚ`);
* the column-name sniffing of `asymmetric_analysis.py` (`'price' in
  col.lower()`, `'time' in col.lower() or 'date' in col.lower()`) is
  modelled over the fixed schema of the zigzag legs CSVs
  (`start_time_utc_seconds`, `end_time_utc_seconds`, `start_price`,
  `end_price` — see `required_cols` in `calculate_intraday_volatility.py`);
* a DataFrame that a function can modify in place travels through the
  function: such functions return the pair (table as left behind in the
  caller, computed result);
* missing values (`NaN` / absent dict keys) become `Option.none`;
  `dict.get(key, default)` becomes `Option.getD`.
-/

namespace EconIndicators

/-- Columns of the zigzag legs CSVs (`mt5_zigzag_legs_*.csv`), in file order. -/
inductive ZigzagColumn
  | startTimeUtcSeconds
  | endTimeUtcSeconds
  | startPrice
  | endPrice
deriving DecidableEq, Repr

/-- The zigzag schema in column order. -/
def zigzagColumns : List ZigzagColumn :=
  [.startTimeUtcSeconds, .endTimeUtcSeconds, .startPrice, .endPrice]

/-- Whether `'price' in col.lower()` holds for a zigzag column name. -/
def nameContainsPrice : ZigzagColumn → Bool
  | .startPrice => true
  | .endPrice => true
  | _ => false

/-- Whether `'time' in col.lower() or 'date' in col.lower()` holds. -/
def nameContainsTimeOrDate : ZigzagColumn → Bool
  | .startTimeUtcSeconds => true
  | .endTimeUtcSeconds => true
  | _ => false

/-- `price_cols[0]` in `calculate_price_movement`: the first zigzag column
whose name contains `price` is `start_price`, not the union of start and
end prices. -/
lemma priceColsHead :
    (zigzagColumns.filter nameContainsPrice).head? = some .startPrice := by
  decide

/-- `time_cols[0]` in `calculate_price_movement` / `extract_zigzag_window`:
the first time-like column is `start_time_utc_seconds`. -/
lemma timeColsHead :
    (zigzagColumns.filter nameContainsTimeOrDate).head? = some .startTimeUtcSeconds := by
  decide

/-- One zigzag leg (pivot) row. Times are UTC timestamps in seconds,
prices are floats; both are embedded as rationals. -/
structure Pivot where
  startTime : ℚ
  endTime : ℚ
  startPrice : ℚ
  endPrice : ℚ
deriving DecidableEq, Repr

/-- A zigzag DataFrame as seen by `asymmetric_analysis.py`: its rows plus
the dtype of the first time column. `timeIsDatetime = false` models a time
column still held as strings; the instants denoted are the same either
way, so rows keep their numeric timestamps. -/
structure ZigzagTable where
  timeIsDatetime : Bool
  rows : List Pivot
deriving DecidableEq, Repr

/-- Shallow embedding of `extract_zigzag_window` (asymmetric_analysis.py
lines 297-333). The time column used is the first column whose name
contains `time`/`date`, i.e. `start_time` (`timeColsHead`); rows are kept
when `start_time <= t <= end_time` (closed interval on both ends). The
line `zigzag_df[time_col] = pd.to_datetime(zigzag_df[time_col])` writes
the parsed column back into the caller's DataFrame when the dtype is not
already datetime, so the first component of the result is the input table
as left behind in the caller. -/
def extractZigzagWindow (df : ZigzagTable) (startTime endTime : ℚ) :
    ZigzagTable × List Pivot :=
  let df' : ZigzagTable :=
    if df.timeIsDatetime then df else { df with timeIsDatetime := true }
  (df', df'.rows.filter (fun r =>
    decide (startTime ≤ r.startTime ∧ r.startTime ≤ endTime)))

/-- Maximum of a list of rationals (`Series.max()`): `none` on an empty
series. -/
def listMax : List ℚ → Option ℚ
  | [] => none
  | x :: xs => some (xs.foldl max x)

/-- Minimum of a list of rationals (`Series.min()`). -/
def listMin : List ℚ → Option ℚ
  | [] => none
  | x :: xs => some (xs.foldl min x)

/-- All `start_price` and `end_price` values of a window, the price set the
spec attributes to `movement_metrics`
(`pd.concat([window['start_price'], window['end_price']])`). -/
def unionPrices (w : List Pivot) : List ℚ :=
  w.map Pivot.startPrice ++ w.map Pivot.endPrice

/-- Movement direction (`'up'` / `'down'` / `'neutral'`). -/
inductive MoveDirection
  | up
  | down
  | neutral
deriving DecidableEq, Repr

/-- The dict returned by `calculate_price_movement`. In the short-window
branch the keys `net_movement` and `movement_efficiency` are absent, which
is modelled by `none`. -/
structure MovementResult where
  priceMovement : ℚ
  maxPrice : Option ℚ
  minPrice : Option ℚ
  startPrice : Option ℚ
  endPrice : Option ℚ
  movementDirection : MoveDirection
  netMovement : Option ℚ
  movementEfficiency : Option ℚ
deriving DecidableEq, Repr

/-- `zigzag_window.sort_values(by=time_col)` with `time_col = start_time`. -/
def sortedByTime (w : List Pivot) : List Pivot :=
  w.mergeSort (fun a b => a.startTime ≤ b.startTime)

/-- Shallow embedding of `calculate_price_movement` (asymmetric_analysis.py
lines 336-419). With fewer than 2 rows it returns movement 0, `None`
extrema and boundary prices, and direction neutral. Otherwise
`price_col = price_cols[0] = start_price` (`priceColsHead`), so max/min
are taken over the `start_price` column only; start/end prices are the
first/last `start_price` after sorting by the time column. -/
def calculatePriceMovement : List Pivot → MovementResult
  | [] => ⟨0, none, none, none, none, .neutral, none, none⟩
  | [_] => ⟨0, none, none, none, none, .neutral, none, none⟩
  | p :: q :: rest =>
    let maxPrice := ((q :: rest).map Pivot.startPrice).foldl max p.startPrice
    let minPrice := ((q :: rest).map Pivot.startPrice).foldl min p.startPrice
    let priceMovement := maxPrice - minPrice
    let s := sortedByTime (p :: q :: rest)
    let startP := (s.head?.getD p).startPrice
    let endP := (s.getLast?.getD p).startPrice
    let dir : MoveDirection :=
      if startP < endP then .up else if endP < startP then .down else .neutral
    ⟨priceMovement, some maxPrice, some minPrice, some startP, some endP, dir,
      some (endP - startP),
      some (if 0 < priceMovement then |endP - startP| / priceMovement else 0)⟩

/-- A Python float that is either an ordinary number or `float('inf')`
(the value `calculate_ratios` stores when the pre-movement is negative). -/
inductive PyFloat
  | num (q : ℚ)
  | inf
deriving DecidableEq, Repr

/-- `x > 0` on a `PyFloat` (`float('inf') > 0` is true in Python). -/
def PyFloat.pos : PyFloat → Bool
  | .num q => decide (0 < q)
  | .inf => true

/-- The fields of a pre-event result dict that `calculate_ratios` reads.
`valid` is `pre_results.get('pre_event_valid', False)`; the other two
fields are `none` when the corresponding key is absent. -/
structure PreResults where
  valid : Bool
  priceMovement : Option ℚ
  direction : Option MoveDirection
deriving DecidableEq, Repr

/-- The per-window entries of a post-event result dict:
`post_{n}min_valid`, `post_{n}min_price_movement`,
`post_{n}min_movement_direction`. For a window that failed the 2-point
check, `analyze_post_event` stores only `valid=False` and the point count,
so movement and direction are absent (`none`). -/
structure PostWindow where
  valid : Bool
  priceMovement : Option ℚ
  direction : Option MoveDirection
deriving DecidableEq, Repr

/-- A post-event result dict: the overall `post_event_valid` flag plus, for
each window length in minutes, the stored per-window entries. -/
structure PostResults where
  valid : Bool
  window : ℕ → PostWindow

/-- The dict returned by `calculate_ratios`, split by key family.
`pearsonr`-style float transcendentals do not exist here, so a
`log_ratio_{n}min` entry records the ratio that `np.log` receives; the
entry is present exactly when the code emits the key. -/
structure RatioOutput where
  ratiosValid : Bool
  ratios : List (ℕ × PyFloat)
  logRatioArgs : List (ℕ × PyFloat)
  dirConsistency : List (ℕ × ℚ)
deriving DecidableEq, Repr

/-- Shallow embedding of `AsymmetricAnalyzer.calculate_ratios`
(asymmetric_analysis.py lines 187-258). `postWindowsCfg` is
`self.post_windows` (default `[5, 15, 30]`). Guard order and defaults
follow the source: invalid pre, invalid post, then zero pre-movement each
return `ratios_valid=False` with no ratio entries; otherwise ratio entries
are emitted for valid windows only, `log_ratio` entries exactly when the
ratio is positive, and direction-consistency entries for every configured
window with missing directions read as neutral. -/
def calculateRatios (postWindowsCfg : List ℕ) (pre : PreResults)
    (post : PostResults) : RatioOutput :=
  if !pre.valid then ⟨false, [], [], []⟩
  else if !post.valid then ⟨false, [], [], []⟩
  else
    let preMovement : ℚ := pre.priceMovement.getD 0
    if preMovement = 0 then ⟨false, [], [], []⟩
    else
      let ratioEntries := postWindowsCfg.filterMap (fun n =>
        let w := post.window n
        if !w.valid then none
        else
          let postMovement : ℚ := w.priceMovement.getD 0
          let r : PyFloat :=
            if 0 < preMovement then .num (postMovement / preMovement) else .inf
          some (n, r))
      let logEntries := ratioEntries.filter (fun e => e.2.pos)
      let preDir := pre.direction.getD .neutral
      let dirEntries := postWindowsCfg.map (fun n =>
        let postDir := (post.window n).direction.getD .neutral
        (n, if preDir = .neutral ∨ postDir = .neutral then (1 : ℚ) / 2
            else if preDir = postDir then 1 else 0))
      ⟨true, ratioEntries, logEntries, dirEntries⟩

/-- A zigzag row as `DataProcessor` sees it after `load_zigzag_data`:
`start_time_jst` is the JST timestamp, embedded in hours since the epoch,
plus the two price columns. -/
structure JstRow where
  startTimeJst : ℚ
  startPrice : ℚ
  endPrice : ℚ
deriving DecidableEq, Repr

/-- The processor's zigzag DataFrame (`self.zigzag_df`):
`startJstIsDatetime` is the dtype of `start_time_jst`, `hasDateJst` is
whether the derived `date_jst` column exists. -/
structure JstTable where
  startJstIsDatetime : Bool
  hasDateJst : Bool
  rows : List JstRow
deriving DecidableEq, Repr

/-- `DataProcessor.FIXED_TIME_WINDOWS_JST` (data_processor.py lines 51-53):
`(start_hour, end_hour)` pairs, end exclusive. -/
def fixedTimeWindowsJST : List (ℕ × ℕ) :=
  [(0, 3), (3, 6), (7, 9), (9, 12), (12, 15), (15, 21), (21, 24)]

/-- `JST_TIME_RANGES` in calculate_intraday_volatility.py (lines 15-23). -/
def jstTimeRanges : List (ℕ × ℕ) :=
  [(7, 9), (9, 12), (12, 15), (15, 21), (21, 24), (0, 3), (3, 7)]

/-- `jst_time_ranges` as re-declared inside
merge_indicators_with_volatility.py (lines 79-87): the same list. -/
def jstTimeRangesMerge : List (ℕ × ℕ) :=
  [(7, 9), (9, 12), (12, 15), (15, 21), (21, 24), (0, 3), (3, 7)]

/-- `get_time_range` (merge_indicators_with_volatility.py lines 90-94): the
first range with `start <= hour < end`, else `None`. The code returns the
range formatted as a string; the embedding returns the range itself. -/
def getTimeRange (hour : ℕ) : Option (ℕ × ℕ) :=
  jstTimeRangesMerge.find? (fun p => decide (p.1 ≤ hour ∧ hour < p.2))

/-- How many segments of a day-segment list contain a given hour. -/
def segmentCount (l : List (ℕ × ℕ)) (h : ℕ) : ℕ :=
  l.countP (fun p => decide (p.1 ≤ h ∧ h < p.2))

/-- `.dt.date` on a JST timestamp counted in hours: the calendar day
index. -/
def dateOf (t : ℚ) : ℤ := ⌊t / 24⌋

/-- One cell of `_calculate_daily_fixed_window_volatility`
(data_processor.py lines 196-239) for date `d` and fixed window
`(sh, eh)`: rows with `window_start <= start_time_jst < window_end` and
`date_jst == date`; on a non-empty selection the cell is
`start_price.max() - start_price.min()` (`start_price` only, per the
source comment), else NaN (`none`). -/
def dailyCell (rows : List JstRow) (d : ℤ) (sh eh : ℕ) : Option ℚ :=
  let windowData := rows.filter (fun p =>
    decide ((d * 24 + sh : ℚ) ≤ p.startTimeJst ∧
      p.startTimeJst < (d * 24 + eh : ℚ) ∧ dateOf p.startTimeJst = d))
  match windowData.map JstRow.startPrice with
  | [] => none
  | x :: xs => some (xs.foldl max x - xs.foldl min x)

/-- The cell as claim C5 words it: pivots whose local start-time lies in
`[segment start, segment end)` of the date (no separate `date_jst`
conjunct), high−low of `start_price` only, NaN (`none`) for an empty
selection. -/
def dailyCellSpec (rows : List JstRow) (d : ℤ) (sh eh : ℕ) : Option ℚ :=
  let inSeg := rows.filter (fun p =>
    decide ((d * 24 + sh : ℚ) ≤ p.startTimeJst ∧
      p.startTimeJst < (d * 24 + eh : ℚ)))
  match inSeg.map JstRow.startPrice with
  | [] => none
  | x :: xs => some (xs.foldl max x - xs.foldl min x)

/-- Shallow embedding of
`DataProcessor._calculate_daily_fixed_window_volatility` (data_processor.py
lines 168-247). The method converts `start_time_jst` to datetime when
needed and writes the `date_jst` column into `self.zigzag_df` before
computing, so the first component is the pivot table as left behind; the
second is one row per distinct date with a cell per fixed window. -/
def calculateDailyFixedWindowVolatility (df : JstTable) :
    JstTable × List (ℤ × List (ℕ × ℕ × Option ℚ)) :=
  let df' : JstTable := { df with startJstIsDatetime := true, hasDateJst := true }
  let allDates := (df'.rows.map (fun p => dateOf p.startTimeJst)).dedup
  (df', allDates.map (fun d =>
    (d, fixedTimeWindowsJST.map (fun w => (w.1, w.2, dailyCell df'.rows d w.1 w.2)))))

/-- Volatility categories 小 / 中 / 大. -/
inductive VolCategory
  | small
  | medium
  | large
deriving DecidableEq, Repr

/-- `get_category` inside `StatisticalProcessor.classify_indicators`
(statistical_processor.py lines 146-152 and 165-171; the percentile and
absolute branches define the same comparison). -/
def getCategory (q1 q2 x : ℚ) : VolCategory :=
  if x < q1 then .small else if x < q2 then .medium else .large

/-- `get_category` in calculate_indicator_statistics.py (lines 72-78). -/
def getCategoryScript (q1 q2 x : ℚ) : VolCategory :=
  if x < q1 then .small else if x < q2 then .medium else .large

/-- The category column added by `classify_indicators`: the mean-volatility
column mapped through `get_category`. -/
def classifyIndicators (q1 q2 : ℚ) (means : List ℚ) : List VolCategory :=
  means.map (getCategory q1 q2)

/-- `analyzed_df.dropna(subset=[smaller_col, larger_col])` restricted to
the two movement columns: the rows where both horizons are non-missing. -/
def validRows (rows : List (Option ℚ × Option ℚ)) : List (ℚ × ℚ) :=
  rows.filterMap (fun r =>
    match r with
    | (some s, some l) => some (s, l)
    | _ => none)

/-- What `analyze_propagation_effects` computes for one adjacent scale
pair. `pearsonr` and `linregress` are float procedures, so the embedding
records the exact rows they receive (`corrRows`, as (smaller, larger)
pairs) and the exact values averaged into `avg_growth_ratio`
(`growthRatios`). -/
structure PropagationResult where
  count : ℕ
  corrRows : List (ℚ × ℚ)
  growthRatios : List ℚ
deriving DecidableEq, Repr

/-- Shallow embedding of the per-pair body of
`MultiscaleAnalyzer.analyze_propagation_effects` (multiscale_analysis.py
lines 168-198). The pair is skipped (`none`) when fewer than 5 rows have
both columns non-missing; otherwise correlation and the larger-on-smaller
regression run over all those rows, while
`np.mean(larger / smaller.replace(0, np.nan))` silently drops the rows
whose smaller-scale value is 0 (pandas mean skips NaN). -/
def propagationPair (rows : List (Option ℚ × Option ℚ)) :
    Option PropagationResult :=
  let valid := validRows rows
  if valid.length < 5 then none
  else
    some ⟨valid.length, valid,
      (valid.filter (fun p => decide (p.1 ≠ 0))).map (fun p => p.2 / p.1)⟩

/-- Adjacent scale pairs: `(time_scales[i], time_scales[i+1])`. -/
def adjacentPairs (scales : List ℕ) : List (ℕ × ℕ) :=
  scales.zip scales.tail

/-- The driver loop of `analyze_propagation_effects`: one result per
adjacent pair of configured scales that is not skipped. `col` gives, per
scale, its movement column with rows aligned across scales. -/
def analyzePropagationEffects (scales : List ℕ) (col : ℕ → List (Option ℚ)) :
    List (ℕ × ℕ × PropagationResult) :=
  (adjacentPairs scales).filterMap (fun p =>
    (propagationPair ((col p.1).zip (col p.2))).map (fun r => (p.1, p.2, r)))

/-- C8: for every pivot subset with fewer than 2 rows,
`calculate_price_movement` returns `price_movement = 0`, missing (`None`)
max/min/start/end prices, and direction neutral, and (being total) never
raises. -/
theorem calculatePriceMovement_short_window (w : List Pivot)
    (h : w.length < 2) :
    calculatePriceMovement w = ⟨0, none, none, none, none, .neutral, none, none⟩ := by
  match w with
  | [] => rfl
  | [_] => rfl
  | _ :: _ :: t =>
    simp [List.length_cons] at h
    omega

theorem calculatePriceMovement_short_window_witness :
    calculatePriceMovement [] = ⟨0, none, none, none, none, .neutral, none, none⟩ :=
  calculatePriceMovement_short_window [] (by simp)

/-- C9: `extract_zigzag_window` returns exactly the pivots whose time-column
value lies in the closed interval `[t0, t1]`, and an empty input table
yields an empty result (the embedding is total, so no exception). -/
theorem extractZigzagWindow_closed_interval (df : ZigzagTable) (t0 t1 : ℚ) :
    (∀ r : Pivot, r ∈ (extractZigzagWindow df t0 t1).2 ↔
      r ∈ df.rows ∧ t0 ≤ r.startTime ∧ r.startTime ≤ t1) ∧
    (df.rows = [] → (extractZigzagWindow df t0 t1).2 = []) := by
  have hrows :
      (if df.timeIsDatetime then df else { df with timeIsDatetime := true }).rows
        = df.rows := by
    cases df.timeIsDatetime <;> rfl
  constructor
  · intro r
    simp [extractZigzagWindow, hrows, List.mem_filter, and_assoc]
  · intro h
    cases hb : df.timeIsDatetime <;> simp [extractZigzagWindow, hb, h]

theorem extractZigzagWindow_closed_interval_witness :
    (⟨1, 1, 1, 1⟩ : Pivot) ∈ (extractZigzagWindow ⟨true, [⟨1, 1, 1, 1⟩]⟩ 0 2).2 :=
  ((extractZigzagWindow_closed_interval ⟨true, [⟨1, 1, 1, 1⟩]⟩ 0 2).1
    ⟨1, 1, 1, 1⟩).mpr ⟨by simp, by norm_num, by norm_num⟩

/-- C2 counterexample: hour 6 lies in no segment of data_processor's
`FIXED_TIME_WINDOWS_JST` (`(3, 6)` excludes it and the next segment starts
at 7), so that definition does not partition the 24-hour day. -/
theorem fixedTimeWindows_gap_hour6 :
    segmentCount fixedTimeWindowsJST 6 = 0 ∧ 6 < 24 ∧
    ¬ (∀ h : ℕ, h < 24 → ∃ p ∈ fixedTimeWindowsJST, p.1 ≤ h ∧ h < p.2) := by
  decide

/-- C2 corrected: the partition shared by calculate_intraday_volatility and
merge_indicators_with_volatility covers every hour 0..23 exactly once (and
`get_time_range` is total there), while data_processor's
`FIXED_TIME_WINDOWS_JST` is overlap-free and covers every hour except
hour 6. -/
theorem daySegment_partition (h : ℕ) (hh : h < 24) :
    segmentCount jstTimeRanges h = 1 ∧
    segmentCount jstTimeRangesMerge h = 1 ∧
    (getTimeRange h).isSome = true ∧
    segmentCount fixedTimeWindowsJST h ≤ 1 ∧
    (h ≠ 6 → segmentCount fixedTimeWindowsJST h = 1) := by
  revert h
  decide

theorem daySegment_partition_witness :
    segmentCount jstTimeRanges 5 = 1 ∧ segmentCount fixedTimeWindowsJST 5 = 1 :=
  ⟨(daySegment_partition 5 (by decide)).1,
    (daySegment_partition 5 (by decide)).2.2.2.2 (by decide)⟩

/-- C6: with thresholds `q1 <= q2`, classification is Small strictly below
`q1`, Medium from `q1` up to (excluding) `q2`, Large from `q2` on — the
same in both implementations — and the scenario values
`[0.5, 1.0, 1.5, 2.0, 2.5]` with `q1 = 1`, `q2 = 2` classify to
`[Small, Medium, Medium, Large, Large]`. -/
theorem classify_boundaries (q1 q2 : ℚ) (hq : q1 ≤ q2) :
    (∀ x : ℚ, x < q1 → getCategory q1 q2 x = .small) ∧
    (∀ x : ℚ, q1 ≤ x → x < q2 → getCategory q1 q2 x = .medium) ∧
    (∀ x : ℚ, q2 ≤ x → getCategory q1 q2 x = .large) ∧
    (∀ x : ℚ, getCategoryScript q1 q2 x = getCategory q1 q2 x) ∧
    classifyIndicators 1 2 [1/2, 1, 3/2, 2, 5/2] =
      [.small, .medium, .medium, .large, .large] := by
  refine ⟨?_, ?_, ?_, fun x => rfl, ?_⟩
  · intro x hx
    simp [getCategory, hx]
  · intro x h1 h2
    simp [getCategory, not_lt.mpr h1, h2]
  · intro x h2
    have h1 : ¬ x < q1 := not_lt.mpr (le_trans hq h2)
    simp [getCategory, h1, not_lt.mpr h2]
  · norm_num [classifyIndicators, getCategory]

theorem classify_boundaries_witness :
    getCategory 1 2 (1/2) = .small ∧ getCategory 1 2 1 = .medium ∧
    getCategory 1 2 2 = .large :=
  ⟨(classify_boundaries 1 2 (by norm_num)).1 (1/2) (by norm_num),
    (classify_boundaries 1 2 (by norm_num)).2.1 1 (by norm_num) (by norm_num),
    (classify_boundaries 1 2 (by norm_num)).2.2.1 2 (by norm_num)⟩

/-- C1 counterexample: on a two-pivot window with start prices 1, 2 and end
prices 5, 3 the union of start and end prices has max 5 and min 1
(movement 4), but `calculate_price_movement` reports high 2, low 1,
movement 1, because it reads only the first price column. -/
theorem unionPrices_counterexample :
    (calculatePriceMovement [⟨0, 0, 1, 5⟩, ⟨1, 1, 2, 3⟩]).maxPrice = some 2 ∧
    (calculatePriceMovement [⟨0, 0, 1, 5⟩, ⟨1, 1, 2, 3⟩]).minPrice = some 1 ∧
    (calculatePriceMovement [⟨0, 0, 1, 5⟩, ⟨1, 1, 2, 3⟩]).priceMovement = 1 ∧
    listMax (unionPrices [⟨0, 0, 1, 5⟩, ⟨1, 1, 2, 3⟩]) = some 5 ∧
    listMin (unionPrices [⟨0, 0, 1, 5⟩, ⟨1, 1, 2, 3⟩]) = some 1 := by
  norm_num [calculatePriceMovement, unionPrices, listMax, listMin,
    max_def, min_def]

/-- C1 corrected: for every pivot subset with at least 2 rows, the returned
high and low are the maximum and minimum of the first price column
(`start_price`) alone — not of the union of start and end prices — and
`price_movement` is their difference. -/
theorem calculatePriceMovement_extrema (w : List Pivot) (h : 2 ≤ w.length) :
    (calculatePriceMovement w).maxPrice = listMax (w.map Pivot.startPrice) ∧
    (calculatePriceMovement w).minPrice = listMin (w.map Pivot.startPrice) ∧
    some (calculatePriceMovement w).priceMovement =
      (listMax (w.map Pivot.startPrice)).bind (fun hi =>
        (listMin (w.map Pivot.startPrice)).map (fun lo => hi - lo)) := by
  match w with
  | [] => simp at h
  | [_] => simp at h
  | p :: q :: rest => exact ⟨rfl, rfl, rfl⟩

theorem calculatePriceMovement_extrema_witness :
    (calculatePriceMovement [⟨0, 0, 3, 0⟩, ⟨1, 1, 7, 0⟩]).maxPrice =
      listMax ([⟨0, 0, 3, 0⟩, ⟨1, 1, 7, 0⟩].map Pivot.startPrice) :=
  (calculatePriceMovement_extrema [⟨0, 0, 3, 0⟩, ⟨1, 1, 7, 0⟩] (by simp)).1

/-- C3 counterexample: extraction over a table whose time column is not yet
datetime-typed hands a changed table back to the caller, and the daily
fixed-window calculator writes the `date_jst` column into the pivot table
in place, so both operations mutate their input table. -/
theorem mutation_counterexample :
    (extractZigzagWindow ⟨false, [⟨0, 0, 1, 2⟩]⟩ 0 1).1 ≠ ⟨false, [⟨0, 0, 1, 2⟩]⟩ ∧
    (calculateDailyFixedWindowVolatility ⟨false, false, [⟨0, 1, 2⟩]⟩).1 ≠
      ⟨false, false, [⟨0, 1, 2⟩]⟩ := by
  constructor
  · simp [extractZigzagWindow]
  · simp [calculateDailyFixedWindowVolatility]

/-- C3 corrected: every operation preserves the rows of its input table and
leaves the table entirely unchanged when its time column is already
datetime-typed (and `date_jst` already present); the only in-place effects
are the dtype conversion in `extract_zigzag_window` and the
`date_jst`/datetime column writes in
`_calculate_daily_fixed_window_volatility`. -/
theorem operations_preserve_rows (df : ZigzagTable) (t0 t1 : ℚ)
    (jdf : JstTable) :
    (extractZigzagWindow df t0 t1).1.rows = df.rows ∧
    (df.timeIsDatetime = true → (extractZigzagWindow df t0 t1).1 = df) ∧
    (calculateDailyFixedWindowVolatility jdf).1.rows = jdf.rows ∧
    (jdf.startJstIsDatetime = true → jdf.hasDateJst = true →
      (calculateDailyFixedWindowVolatility jdf).1 = jdf) := by
  refine ⟨?_, ?_, rfl, ?_⟩
  · cases h : df.timeIsDatetime <;> simp [extractZigzagWindow, h]
  · intro h
    simp [extractZigzagWindow, h]
  · intro h1 h2
    cases jdf
    simp_all [calculateDailyFixedWindowVolatility]

theorem operations_preserve_rows_witness :
    (extractZigzagWindow ⟨true, []⟩ 0 1).1 = ⟨true, []⟩ :=
  (operations_preserve_rows ⟨true, []⟩ 0 1 ⟨true, true, []⟩).2.1 rfl

lemma le_foldl_max (a : ℚ) (l : List ℚ) : a ≤ l.foldl max a := by
  induction l generalizing a with
  | nil => exact le_refl a
  | cons x xs ih => exact le_trans (le_max_left a x) (ih (max a x))

lemma foldl_min_le (a : ℚ) (l : List ℚ) : l.foldl min a ≤ a := by
  induction l generalizing a with
  | nil => exact le_refl a
  | cons x xs ih => exact le_trans (ih (min a x)) (min_le_left a x)

/-- The price movement computed by `calculate_price_movement` is a
max-minus-min, hence never negative; this backs the positivity hypothesis
used when reasoning about `calculate_ratios`. -/
lemma calculatePriceMovement_nonneg (w : List Pivot) :
    0 ≤ (calculatePriceMovement w).priceMovement := by
  match w with
  | [] => exact le_refl 0
  | [_] => exact le_refl 0
  | p :: q :: rest =>
    have h1 := le_foldl_max p.startPrice ((q :: rest).map Pivot.startPrice)
    have h2 := foldl_min_le p.startPrice ((q :: rest).map Pivot.startPrice)
    show (0 : ℚ) ≤ _ - _
    linarith

/-- C4: `calculate_ratios` returns `ratios_valid=False` (and no ratio
entries), without raising, whenever the pre result is invalid, the post
result is invalid, or the pre-event movement is 0; otherwise every post
window whose own metrics are valid gets
`ratio_{n}min = post movement / pre movement`, and a `log_ratio_{n}min`
entry is present exactly for the emitted ratios that are positive. -/
theorem calculateRatios_guards (cfg : List ℕ) (pre : PreResults)
    (post : PostResults) :
    (pre.valid = false → (calculateRatios cfg pre post).ratiosValid = false) ∧
    (post.valid = false → (calculateRatios cfg pre post).ratiosValid = false) ∧
    (pre.priceMovement.getD 0 = 0 →
      (calculateRatios cfg pre post).ratiosValid = false) ∧
    (pre.valid = true → post.valid = true → 0 < pre.priceMovement.getD 0 →
      ∀ n ∈ cfg, (post.window n).valid = true →
        (n, PyFloat.num ((post.window n).priceMovement.getD 0 /
            pre.priceMovement.getD 0)) ∈ (calculateRatios cfg pre post).ratios) ∧
    (∀ e : ℕ × PyFloat, e ∈ (calculateRatios cfg pre post).logRatioArgs ↔
      e ∈ (calculateRatios cfg pre post).ratios ∧ e.2.pos = true) := by
  refine ⟨?_, ?_, ?_, ?_, ?_⟩
  · intro h
    simp [calculateRatios, h]
  · intro h
    cases hp : pre.valid <;> simp [calculateRatios, hp, h]
  · intro h
    cases hp : pre.valid <;> cases hq : post.valid <;>
      simp [calculateRatios, hp, hq, h]
  · intro h1 h2 h3 n hn hv
    simp only [calculateRatios, h1, h2, Bool.not_true, Bool.false_eq_true,
      if_false, h3.ne', ite_false]
    refine List.mem_filterMap.mpr ⟨n, hn, ?_⟩
    simp [hv, h3]
  · intro e
    cases hp : pre.valid
    · simp [calculateRatios, hp]
    · cases hq : post.valid
      · simp [calculateRatios, hp, hq]
      · by_cases hm : pre.priceMovement.getD 0 = 0
        · simp [calculateRatios, hp, hq, hm]
        · simp [calculateRatios, hp, hq, hm, List.mem_filter]

theorem calculateRatios_guards_witness :
    ((5 : ℕ), PyFloat.num 4) ∈
      (calculateRatios [5, 15, 30] ⟨true, some 1, some .up⟩
        ⟨true, fun n => if n = 5 then ⟨true, some 4, some .up⟩
          else ⟨false, none, none⟩⟩).ratios := by
  have h := (calculateRatios_guards [5, 15, 30] ⟨true, some 1, some .up⟩
      ⟨true, fun n => if n = 5 then ⟨true, some 4, some .up⟩
        else ⟨false, none, none⟩⟩).2.2.2.1
      rfl rfl (by norm_num) 5 (by norm_num) (by norm_num)
  simpa using h

/-- C10: whenever `calculate_ratios` reports `ratios_valid=True`, a
`direction_consistency_{n}min` entry exists for every configured post
window, including windows whose own metrics are invalid: a missing
post-window direction reads as neutral, making the entry 1/2, while the
invalid window's `ratio_{n}min` is absent. -/
theorem calculateRatios_dirConsistency (cfg : List ℕ) (pre : PreResults)
    (post : PostResults)
    (hvalid : (calculateRatios cfg pre post).ratiosValid = true) :
    ∀ n ∈ cfg, ∃ c : ℚ,
      (n, c) ∈ (calculateRatios cfg pre post).dirConsistency ∧
      ((post.window n).direction = none → c = 1/2) ∧
      ((post.window n).valid = false →
        ∀ v : PyFloat, (n, v) ∉ (calculateRatios cfg pre post).ratios) := by
  intro n hn
  cases hp : pre.valid
  · rw [calculateRatios] at hvalid
    simp [hp] at hvalid
  · cases hq : post.valid
    · simp [calculateRatios, hp, hq] at hvalid
    · by_cases hm : pre.priceMovement.getD 0 = 0
      · simp [calculateRatios, hp, hq, hm] at hvalid
      · refine ⟨if pre.direction.getD .neutral = .neutral ∨
            (post.window n).direction.getD .neutral = .neutral then (1 : ℚ)/2
          else if pre.direction.getD .neutral =
            (post.window n).direction.getD .neutral then 1 else 0, ?_, ?_, ?_⟩
        · simp only [calculateRatios, hp, hq, hm, Bool.not_true,
            Bool.false_eq_true, if_false, ite_false]
          exact List.mem_map.mpr ⟨n, hn, rfl⟩
        · intro hd
          simp [hd]
        · intro hv v hmem
          simp only [calculateRatios, hp, hq, hm, Bool.not_true,
            Bool.false_eq_true, if_false, ite_false] at hmem
          obtain ⟨m, hmcfg, hfm⟩ := List.mem_filterMap.mp hmem
          by_cases hwv : (post.window m).valid
          · simp only [hwv, Bool.not_true, Bool.false_eq_true, if_false,
              ite_false, Option.some.injEq, Prod.mk.injEq] at hfm
            obtain ⟨rfl, -⟩ := hfm
            rw [hv] at hwv
            exact Bool.false_ne_true hwv
          · simp [hwv] at hfm

theorem calculateRatios_dirConsistency_witness :
    ∃ c : ℚ,
      ((5 : ℕ), c) ∈ (calculateRatios [5] ⟨true, some 1, some .up⟩
        ⟨true, fun _ => ⟨false, none, none⟩⟩).dirConsistency ∧
      (((⟨true, fun _ => ⟨false, none, none⟩⟩ : PostResults).window 5).direction
          = none → c = 1/2) ∧
      (((⟨true, fun _ => ⟨false, none, none⟩⟩ : PostResults).window 5).valid
          = false →
        ∀ v : PyFloat, ((5 : ℕ), v) ∉ (calculateRatios [5]
          ⟨true, some 1, some .up⟩
          ⟨true, fun _ => ⟨false, none, none⟩⟩).ratios) :=
  calculateRatios_dirConsistency [5] ⟨true, some 1, some .up⟩
    ⟨true, fun _ => ⟨false, none, none⟩⟩ (by norm_num [calculateRatios]) 5
    (by simp)

lemma dateOf_eq_of_bounds (d : ℤ) (t : ℚ) (h1 : (d * 24 : ℚ) ≤ t)
    (h2 : t < (d * 24 + 24 : ℚ)) : dateOf t = d := by
  unfold dateOf
  rw [Int.floor_eq_iff]
  constructor
  · rw [le_div_iff₀ (by norm_num : (0 : ℚ) < 24)]
    linarith
  · rw [div_lt_iff₀ (by norm_num : (0 : ℚ) < 24)]
    linarith

lemma fixedWindows_end_le (w : ℕ × ℕ) (hw : w ∈ fixedTimeWindowsJST) :
    w.2 ≤ 24 := by
  fin_cases hw <;> decide

/-- C5: for a segment of `FIXED_TIME_WINDOWS_JST`, the daily volatility
cell equals the spec-side cell computed purely from pivots whose local
start-time lies in `[segment start, segment end)` of the date, using
`start_price` only (the extra `date_jst` guard in the source is redundant
because every segment lies inside its day); an empty selection yields NaN
(`none`) and a single-pivot selection yields movement 0. -/
theorem dailyCell_matches_spec (rows : List JstRow) (d : ℤ) (sh eh : ℕ)
    (hw : (sh, eh) ∈ fixedTimeWindowsJST) :
    dailyCell rows d sh eh = dailyCellSpec rows d sh eh ∧
    (List.filter (fun p => decide ((d * 24 + sh : ℚ) ≤ p.startTimeJst ∧
        p.startTimeJst < (d * 24 + eh : ℚ))) rows = [] →
      dailyCell rows d sh eh = none) ∧
    ((List.filter (fun p => decide ((d * 24 + sh : ℚ) ≤ p.startTimeJst ∧
        p.startTimeJst < (d * 24 + eh : ℚ))) rows).length = 1 →
      dailyCell rows d sh eh = some 0) := by
  have heh : (eh : ℚ) ≤ 24 := by
    exact_mod_cast fixedWindows_end_le (sh, eh) hw
  have hfil :
      List.filter (fun p => decide ((d * 24 + sh : ℚ) ≤ p.startTimeJst ∧
          p.startTimeJst < (d * 24 + eh : ℚ) ∧ dateOf p.startTimeJst = d)) rows
        = List.filter (fun p => decide ((d * 24 + sh : ℚ) ≤ p.startTimeJst ∧
          p.startTimeJst < (d * 24 + eh : ℚ))) rows := by
    apply List.filter_congr
    intro p _
    by_cases hA : (d * 24 + sh : ℚ) ≤ p.startTimeJst
    · by_cases hB : p.startTimeJst < (d * 24 + eh : ℚ)
      · have hd : dateOf p.startTimeJst = d := by
          apply dateOf_eq_of_bounds d p.startTimeJst
          · have : (0 : ℚ) ≤ (sh : ℚ) := by positivity
            linarith
          · linarith
        simp [hA, hB, hd]
      · simp [hB]
    · simp [hA]
  refine ⟨?_, ?_, ?_⟩
  · simp only [dailyCell, dailyCellSpec, hfil]
  · intro h0
    simp only [dailyCell, hfil, h0, List.map_nil]
  · intro h1
    obtain ⟨p, hp⟩ := List.length_eq_one.mp h1
    simp only [dailyCell, hfil, hp, List.map_cons, List.map_nil, List.foldl,
      sub_self]

theorem dailyCell_matches_spec_witness :
    dailyCell [⟨7, 5, 9⟩] 0 7 9 = some 0 := by
  apply (dailyCell_matches_spec [⟨7, 5, 9⟩] 0 7 9 (by decide)).2.2
  norm_num [List.filter]

lemma validRows_length (rows : List (Option ℚ × Option ℚ)) :
    (validRows rows).length =
      rows.countP (fun r => r.1.isSome && r.2.isSome) := by
  induction rows with
  | nil => rfl
  | cons r rest ih =>
    rcases r with ⟨s, l⟩
    cases s <;> cases l <;>
      simp [validRows, List.filterMap_cons, List.countP_cons, ← ih]

/-- C7 counterexample: with five rows where both horizons are non-missing
but one smaller-horizon value is 0, only 4 rows have a non-zero
denominator, yet the pair is not skipped: correlation and regression
receive all 5 rows (the zero-denominator row included) and only the mean
growth ratio drops it. -/
theorem propagation_zero_denominator_counterexample :
    propagationPair [(some 0, some 1), (some 1, some 1), (some 2, some 1),
        (some 3, some 1), (some 4, some 1)] =
      some ⟨5, [(0, 1), (1, 1), (2, 1), (3, 1), (4, 1)],
        [1/1, 1/2, 1/3, 1/4]⟩ ∧
    (validRows [(some 0, some 1), (some 1, some 1), (some 2, some 1),
        (some 3, some 1), (some 4, some 1)]).countP
      (fun p => decide (p.1 ≠ 0)) = 4 := by
  constructor
  · norm_num [propagationPair, validRows, List.filterMap_cons, List.filter]
  · norm_num [validRows, List.filterMap_cons, List.countP_cons]

/-- C7 corrected: a pair is processed exactly when at least 5 rows have
both horizons non-missing (rows with a zero smaller-horizon value count);
correlation and the larger-on-smaller regression then use all those rows,
and only the mean larger/smaller growth ratio is additionally restricted
to rows whose smaller-horizon value is non-zero. -/
theorem propagationPair_row_selection (rows : List (Option ℚ × Option ℚ)) :
    ((propagationPair rows).isSome ↔
      5 ≤ rows.countP (fun r => r.1.isSome && r.2.isSome)) ∧
    (∀ res : PropagationResult, propagationPair rows = some res →
      res.corrRows = validRows rows ∧
      res.count = rows.countP (fun r => r.1.isSome && r.2.isSome) ∧
      res.growthRatios = ((validRows rows).filter
        (fun p => decide (p.1 ≠ 0))).map (fun p => p.2 / p.1)) := by
  constructor
  · rw [← validRows_length]
    by_cases hlen : (validRows rows).length < 5
    · simp [propagationPair, hlen]
    · simp [propagationPair, hlen]
      omega
  · intro res hres
    by_cases hlen : (validRows rows).length < 5
    · simp [propagationPair, hlen] at hres
    · simp only [propagationPair, hlen, if_false, ite_false,
        Option.some.injEq] at hres
      rw [← hres, ← validRows_length]
      exact ⟨rfl, rfl, rfl⟩

theorem propagationPair_row_selection_witness :
    (propagationPair [(some 1, some 2), (some 1, some 2), (some 1, some 2),
      (some 1, some 2), (some 1, some 2)]).isSome :=
  (propagationPair_row_selection [(some 1, some 2), (some 1, some 2),
    (some 1, some 2), (some 1, some 2), (some 1, some 2)]).1.mpr
    (by norm_num [List.countP_cons])

end EconIndicators
